import Mathlib

/-!
Verification development for the `currency` Go package (bojanz/currency).

The package stores monetary amounts as arbitrary-precision decimals
(`cockroachdb/apd` decimals: a sign, a natural-number coefficient and a
decimal exponent) paired with a 3-letter currency code, and provides
currency-mismatch-safe arithmetic, rounding, locale handling and
formatting.  This file shallowly embeds the relevant parts of
`amount.go`, `currency.go`, `locale.go` and `formatter.go` and proves or
refutes the specification claims about them.
-/

namespace Currency

/-- The form of an apd decimal: finite, infinite, or NaN
(models `apd.Decimal.Form`; the zero value is `finite`). -/
inductive DForm where
  | finite
  | infinite
  | nan
deriving DecidableEq, Repr

/-- Model of `apd.Decimal`: sign flag, coefficient magnitude, decimal
exponent and form.  The represented value of a finite decimal is
`(-1)^negative * coeff * 10^exponent`.  The Go zero value is
`{false, 0, 0, finite}`. -/
structure Dec where
  negative : Bool
  coeff : Nat
  exponent : Int
  form : DForm
deriving DecidableEq, Repr

/-- The zero-value `apd.Decimal`. -/
def zeroDec : Dec := ⟨false, 0, 0, .finite⟩

/-- A NaN decimal, used where apd signals an invalid operation. -/
def nanDec : Dec := ⟨false, 0, 0, .nan⟩

/-- Negation in apd: flips the sign flag (models `Decimal.Neg`). -/
def Dec.neg (d : Dec) : Dec := { d with negative := !d.negative }

/-- Signed coefficient of a finite decimal. -/
def Dec.sval (d : Dec) : Int :=
  if d.negative then -(d.coeff : Int) else (d.coeff : Int)

/-- The signed integer obtained by rescaling a finite decimal down to the
common exponent `e` (with `e ≤ d.exponent`). -/
def Dec.scaled (d : Dec) (e : Int) : Int :=
  d.sval * 10 ^ (d.exponent - e).toNat

/-- Models `Decimal.Cmp`: exact value comparison.  Both operands finite:
compare the values; otherwise NaN sorts below everything and infinities
sort by sign (claims only exercise the finite cases). -/
def Dec.cmp (a b : Dec) : Int :=
  match a.form, b.form with
  | .finite, .finite =>
    let e := min a.exponent b.exponent
    let x := a.scaled e
    let y := b.scaled e
    if x < y then -1 else if x = y then 0 else 1
  | .nan, .nan => 0
  | .nan, _ => -1
  | _, .nan => 1
  | .infinite, .infinite =>
    if a.negative = b.negative then 0 else if a.negative then -1 else 1
  | .infinite, _ => if a.negative then -1 else 1
  | _, .infinite => if b.negative then 1 else -1

/-- Number of decimal digits of a coefficient, with fuel for structural
recursion (models `apd.Decimal.NumDigits`; `NumDigits 0 = 1`). -/
def numDigits10Aux : Nat → Nat → Nat
  | 0, _ => 0
  | fuel + 1, n => if n < 10 then 1 else numDigits10Aux fuel (n / 10) + 1

/-- Number of decimal digits of a coefficient. -/
def numDigits10 (n : Nat) : Nat := numDigits10Aux (n + 1) n

/-- Bit length of a coefficient, with fuel (models `big.Int.BitLen`:
`BitLen 0 = 0`). -/
def bitLenAux : Nat → Nat → Nat
  | 0, _ => 0
  | fuel + 1, n => if n = 0 then 0 else bitLenAux fuel (n / 2) + 1

/-- Bit length of a coefficient. -/
def bitLen (n : Nat) : Nat := bitLenAux (n + 1) n

/-- Models `decimalContext` from `amount.go`: precision 39 when any
operand coefficient is wider than 31 bits, else precision 19. -/
def decPrecision (ds : List Dec) : Nat :=
  if ds.any (fun d => 31 < bitLen d.coeff) then 39 else 19

/-- Round-half-up on a magnitude: drop the last `k` digits of `c`,
rounding the dropped remainder half away from zero (apd's default
rounding for `BaseContext`, used by arithmetic contexts). -/
def roundHalfUpMag (c k : Nat) : Nat :=
  let s := 10 ^ k
  let q := c / s
  let r := c % s
  if s ≤ 2 * r then q + 1 else q

/-- Models the rounding step a context applies after an exact arithmetic
result: when the coefficient has more than `p` digits, drop the excess
digits (rounding half up) and raise the exponent accordingly; a carry
that produces `10^p` is renormalized by one more shift. -/
def applyPrecision (p : Nat) (neg : Bool) (c : Nat) (e : Int) : Dec :=
  let nd := numDigits10 c
  if nd ≤ p then ⟨neg, c, e, .finite⟩
  else
    let k := nd - p
    let c2 := roundHalfUpMag c k
    let e2 := e + k
    if numDigits10 c2 ≤ p then ⟨neg, c2, e2, .finite⟩
    else ⟨neg, c2 / 10, e2 + 1, .finite⟩

/-- Exact sum of two finite decimals: the signed coefficient at the
smaller of the two exponents, paired with that exponent. -/
def addExact (a b : Dec) : Int × Int :=
  let e := min a.exponent b.exponent
  (a.scaled e + b.scaled e, e)

/-- Models `Context.Add` at precision `p`: exact sum, then rounding to
the context precision.  Non-finite operands follow apd's special rules
(NaN dominates; opposite infinities give NaN). -/
def ctxAdd (p : Nat) (a b : Dec) : Dec :=
  match a.form, b.form with
  | .finite, .finite =>
    let s := (addExact a b).1
    let e := (addExact a b).2
    let neg := if s < 0 then true else if s = 0 then a.negative && b.negative else false
    applyPrecision p neg s.natAbs e
  | .nan, _ => nanDec
  | _, .nan => nanDec
  | .infinite, .infinite => if a.negative = b.negative then a else nanDec
  | .infinite, _ => a
  | _, .infinite => b

/-- Models `Context.Sub` at precision `p`: add the negation. -/
def ctxSub (p : Nat) (a b : Dec) : Dec := ctxAdd p a b.neg

/-- Models `Context.Mul` at precision `p`: exact product, then rounding
to the context precision. -/
def ctxMul (p : Nat) (a b : Dec) : Dec :=
  match a.form, b.form with
  | .finite, .finite =>
    applyPrecision p (a.negative ^^ b.negative) (a.coeff * b.coeff) (a.exponent + b.exponent)
  | .nan, _ => nanDec
  | _, .nan => nanDec
  | .infinite, .infinite => ⟨a.negative ^^ b.negative, 0, 0, .infinite⟩
  | .infinite, .finite => if b.coeff = 0 then nanDec else ⟨a.negative ^^ b.negative, 0, 0, .infinite⟩
  | .finite, .infinite => if a.coeff = 0 then nanDec else ⟨a.negative ^^ b.negative, 0, 0, .infinite⟩

/-- The rounding modes of `amount.go` (`RoundingMode` constants,
including `RoundHalfEven` added for bankers' rounding). -/
inductive RoundingMode where
  | RoundHalfUp
  | RoundHalfDown
  | RoundUp
  | RoundDown
  | RoundHalfEven
deriving DecidableEq, Repr

/-- Drop the last `k` digits of the magnitude `c` under a rounding mode
(models the apd rounders: ties and away/toward zero act on the
magnitude, the sign is preserved separately). -/
def roundMag (mode : RoundingMode) (c k : Nat) : Nat :=
  let s := 10 ^ k
  let q := c / s
  let r := c % s
  match mode with
  | .RoundHalfUp => if s ≤ 2 * r then q + 1 else q
  | .RoundHalfDown => if s < 2 * r then q + 1 else q
  | .RoundUp => if 0 < r then q + 1 else q
  | .RoundDown => q
  | .RoundHalfEven =>
    if s < 2 * r then q + 1
    else if 2 * r < s then q
    else if q % 2 = 1 then q + 1 else q

/-- Models `Context.Quantize` at precision `p`: set the exponent of `d`
to `t`, scaling the coefficient exactly upward or rounding it downward
per `mode`; a result needing more than `p` digits is an invalid
operation (NaN), as is quantizing a non-finite decimal. -/
def quantize (p : Nat) (mode : RoundingMode) (d : Dec) (t : Int) : Dec :=
  match d.form with
  | .finite =>
    if t ≤ d.exponent then
      let c := d.coeff * 10 ^ (d.exponent - t).toNat
      if p < numDigits10 c then nanDec else ⟨d.negative, c, t, .finite⟩
    else
      let c := roundMag mode d.coeff (t - d.exponent).toNat
      if p < numDigits10 c then nanDec else ⟨d.negative, c, t, .finite⟩
  | _ => nanDec

/-- Digits of a natural number as characters, with fuel. -/
def natDigitsAux : Nat → Nat → List Char
  | 0, _ => []
  | fuel + 1, n =>
    if n = 0 then [] else natDigitsAux fuel (n / 10) ++ [Char.ofNat (48 + n % 10)]

/-- Decimal string of a natural number. -/
def natToStr (n : Nat) : String :=
  if n = 0 then "0" else ⟨natDigitsAux (n + 1) n⟩

/-- Models `apd.Decimal.String` (format verb G): plain notation when the
exponent is at most 0 and the adjusted exponent is at least -6,
scientific notation otherwise. -/
def decToString (d : Dec) : String :=
  match d.form with
  | .nan => if d.negative then "-NaN" else "NaN"
  | .infinite => if d.negative then "-Infinity" else "Infinity"
  | .finite =>
    let ds := natToStr d.coeff
    let nd : Int := ds.length
    let adj : Int := d.exponent + nd - 1
    let s :=
      if d.exponent ≤ 0 ∧ -6 ≤ adj then
        if d.exponent = 0 then ds
        else
          let k := (-d.exponent).toNat
          if k < ds.length then ds.take (ds.length - k) ++ "." ++ ds.drop (ds.length - k)
          else "0." ++ String.mk (List.replicate (k - ds.length) '0') ++ ds
      else
        let head := ds.take 1
        let tail := ds.drop 1
        let m := if tail = "" then head else head ++ "." ++ tail
        m ++ "E" ++ (if 0 ≤ adj then "+" else "") ++ toString adj
    if d.negative then "-" ++ s else s

/-- Association-list lookup keyed by strings (models Go map access on
the static data tables). -/
def alookup {α : Type} (xs : List (String × α)) (k : String) : Option α :=
  (xs.find? (fun p => p.1 == k)).map (fun p => p.2)

/-- Modelled from the spec: the generated CLDR currency table
(code → numeric code and fraction digits) is static data not under
`src/`; these entries reproduce the registry facts the spec and the
package tests rely on (USD/EUR/CHF 2 digits, JPY/KRW 0, OMR 3). -/
def currencies : List (String × String × Nat) :=
  [("CHF", "756", 2), ("EUR", "978", 2), ("JPY", "392", 0),
   ("KRW", "410", 0), ("OMR", "512", 3), ("USD", "840", 2)]

/-- Models `IsValid` from `currency.go`: an empty code is valid, any
other code must be present in the registry. -/
def IsValid (currencyCode : String) : Bool :=
  if currencyCode = "" then true
  else (alookup currencies currencyCode).isSome

/-- Models `GetDigits` from `currency.go`: fraction digits for a code,
with `(0, false)` for the empty or unknown code. -/
def GetDigits (currencyCode : String) : Nat × Bool :=
  if currencyCode = "" ∨ ¬IsValid currencyCode then (0, false)
  else match alookup currencies currencyCode with
    | some info => (info.2, true)
    | none => (0, false)

/-- Models `DefaultDigits` from `currency.go`: placeholder (255) for a
currency's own number of fraction digits. -/
def DefaultDigits : Nat := 255

/-- Models the `Amount` struct: an apd decimal plus a currency code.
The Go zero value is `{zeroDec, ""}`. -/
structure Amount where
  number : Dec
  currencyCode : String
deriving DecidableEq, Repr

/-- The zero-value `Amount{}`. -/
def zeroAmount : Amount := ⟨zeroDec, ""⟩

/-- The error values of `amount.go`: `InvalidNumberError`,
`InvalidCurrencyCodeError` and `MismatchError` (the mismatch error
carries both offending operands). -/
inductive AmountError where
  | invalidNumber (n : String)
  | invalidCurrencyCode (currencyCode : String)
  | mismatch (a b : Amount)
deriving DecidableEq, Repr

instance exceptDecEq {ε α : Type} [DecidableEq ε] [DecidableEq α] : DecidableEq (Except ε α) :=
  fun x y =>
    match x, y with
    | .ok a, .ok b =>
      if h : a = b then .isTrue (by rw [h]) else .isFalse (by intro he; cases he; exact h rfl)
    | .error a, .error b =>
      if h : a = b then .isTrue (by rw [h]) else .isFalse (by intro he; cases he; exact h rfl)
    | .ok _, .error _ => .isFalse (by intro he; cases he)
    | .error _, .ok _ => .isFalse (by intro he; cases he)

/-- Strip one leading sign character (models apd's sign handling in
`SetString`). -/
def stripSign (s : List Char) : Bool × List Char :=
  match s with
  | '-' :: rest => (true, rest)
  | '+' :: rest => (false, rest)
  | _ => (false, s)

/-- Parse a run of decimal digit characters into a number; `none` when
empty or a non-digit appears. -/
def digitsToNat : List Char → Option Nat
  | [] => none
  | cs =>
    cs.foldl
      (fun acc c =>
        match acc with
        | none => none
        | some n => if '0' ≤ c ∧ c ≤ '9' then some (n * 10 + (c.toNat - 48)) else none)
      (some 0)

/-- Split a character list at the first occurrence of any character in
`seps`, if present. -/
def splitFirst (seps : List Char) : List Char → Option (List Char × List Char)
  | [] => none
  | c :: cs =>
    if seps.contains c then some ([], cs)
    else match splitFirst seps cs with
      | some (l, r) => some (c :: l, r)
      | none => none

/-- Parse the mantissa `digits[.digits]` of a decimal string, returning
the coefficient and the number of fraction digits.  At least one digit
must be present overall (apd accepts "1.", ".5", rejects "."). -/
def parseMantissa (s : List Char) : Option (Nat × Nat) :=
  match splitFirst ['.'] s with
  | none => (digitsToNat s).map (fun c => (c, 0))
  | some (ip, fp) =>
    if ip.isEmpty ∧ fp.isEmpty then none
    else
      match digitsToNat (ip ++ fp) with
      | none => none
      | some c => some (c, fp.length)

/-- Parse an exponent suffix: optional sign then digits. -/
def parseExp (s : List Char) : Option Int :=
  let (neg, rest) := stripSign s
  (digitsToNat rest).map (fun n => if neg then -(n : Int) else (n : Int))

/-- Models `apd.Decimal.SetString`: optional sign; `inf`/`infinity`,
`nan`/`qnan`/`snan` (case-insensitively) give non-finite decimals;
otherwise a mantissa with an optional `e`/`E` exponent.  Returns `none`
exactly when apd reports a parse error. -/
def parseDecimal (s : String) : Option Dec :=
  let (neg, rest) := stripSign s.data
  let low : List Char := rest.map Char.toLower
  if low = "inf".data ∨ low = "infinity".data then some ⟨neg, 0, 0, .infinite⟩
  else if low = "nan".data ∨ low = "qnan".data ∨ low = "snan".data then some ⟨neg, 0, 0, .nan⟩
  else
    match splitFirst ['e', 'E'] rest with
    | none => (parseMantissa rest).map (fun m => ⟨neg, m.1, -(m.2 : Int), .finite⟩)
    | some (mant, es) =>
      match parseMantissa mant, parseExp es with
      | some m, some ex => some ⟨neg, m.1, ex - (m.2 : Int), .finite⟩
      | _, _ => none

/-- Models `NewAmount` from `amount.go`: parse the number, then reject
an empty or unregistered currency code. -/
def NewAmount (n currencyCode : String) : Except AmountError Amount :=
  match parseDecimal n with
  | none => .error (.invalidNumber n)
  | some number =>
    if currencyCode = "" ∨ ¬IsValid currencyCode then .error (.invalidCurrencyCode currencyCode)
    else .ok ⟨number, currencyCode⟩

/-- Models `Amount.Number`. -/
def Amount.Number (a : Amount) : String := decToString a.number

/-- Models `Amount.CurrencyCode`. -/
def Amount.CurrencyCode (a : Amount) : String := a.currencyCode

/-- Models `Amount.String`. -/
def Amount.Str (a : Amount) : String := a.Number ++ " " ++ a.CurrencyCode

/-- Models `Amount.Equal`: false on different currency codes, else
numeric equality via `Cmp`. -/
def Amount.Equal (a b : Amount) : Bool :=
  if a.currencyCode ≠ b.currencyCode then false
  else a.number.cmp b.number == 0

/-- Models `Amount.Add`: on mismatched codes, a zero-value operand acts
as the identity, otherwise the mismatch error; on equal codes, add under
the dynamically selected context. -/
def Amount.Add (a b : Amount) : Except AmountError Amount :=
  if a.currencyCode ≠ b.currencyCode then
    if a.Equal zeroAmount then .ok b
    else if b.Equal zeroAmount then .ok a
    else .error (.mismatch a b)
  else
    .ok ⟨ctxAdd (decPrecision [a.number, b.number]) a.number b.number, a.currencyCode⟩

/-- Models `Amount.Sub`: on mismatched codes, a zero-value minuend gives
the negation of `b` with `b`'s currency, a zero-value subtrahend gives
`a`, otherwise the mismatch error; on equal codes, subtract under the
dynamically selected context. -/
def Amount.Sub (a b : Amount) : Except AmountError Amount :=
  if a.currencyCode ≠ b.currencyCode then
    if a.Equal zeroAmount then .ok ⟨b.number.neg, b.currencyCode⟩
    else if b.Equal zeroAmount then .ok a
    else .error (.mismatch a b)
  else
    .ok ⟨ctxSub (decPrecision [a.number, b.number]) a.number b.number, a.currencyCode⟩

/-- Models `Amount.Mul`: parse the multiplier, multiply under the
dynamically selected context. -/
def Amount.Mul (a : Amount) (n : String) : Except AmountError Amount :=
  match parseDecimal n with
  | none => .error (.invalidNumber n)
  | some m => .ok ⟨ctxMul (decPrecision [a.number, m]) a.number m, a.currencyCode⟩

/-- Models `Amount.Convert`: validate the target code, parse the rate,
multiply under the dynamically selected context. -/
def Amount.Convert (a : Amount) (currencyCode rate : String) : Except AmountError Amount :=
  if currencyCode = "" ∨ ¬IsValid currencyCode then .error (.invalidCurrencyCode currencyCode)
  else match parseDecimal rate with
    | none => .error (.invalidNumber rate)
    | some r => .ok ⟨ctxMul (decPrecision [a.number, r]) a.number r, currencyCode⟩

/-- Models `Amount.Cmp`: mismatch error on different codes, else exact
comparison. -/
def Amount.Cmp (a b : Amount) : Except AmountError Int :=
  if a.currencyCode ≠ b.currencyCode then .error (.mismatch a b)
  else .ok (a.number.cmp b.number)

/-- Models `Amount.IsZero`. -/
def Amount.IsZero (a : Amount) : Bool := a.number.cmp zeroDec == 0

/-- Models `Amount.IsPositive`. -/
def Amount.IsPositive (a : Amount) : Bool := a.number.cmp zeroDec == 1

/-- Models `Amount.IsNegative`. -/
def Amount.IsNegative (a : Amount) : Bool := a.number.cmp zeroDec == -1

/-- Models `Amount.RoundTo`: resolve `DefaultDigits` to the currency's
own digits, then quantize to `-digits` under `roundingContext` (the
dynamically selected precision with the requested rounding mode). -/
def Amount.RoundTo (a : Amount) (digits : Nat) (mode : RoundingMode) : Amount :=
  let digits := if digits = DefaultDigits then (GetDigits a.currencyCode).1 else digits
  ⟨quantize (decPrecision [a.number]) mode a.number (-(digits : Int)), a.currencyCode⟩

/-- Models `Amount.Round`: `RoundTo(DefaultDigits, RoundHalfUp)`. -/
def Amount.Round (a : Amount) : Amount := a.RoundTo DefaultDigits .RoundHalfUp

/-- Models the `Locale` struct from `locale.go`: language, script and
territory subtags. -/
structure Locale where
  Language : String
  Script : String
  Territory : String
deriving DecidableEq, Repr

/-- The empty (root) locale. -/
def emptyLocale : Locale := ⟨"", "", ""⟩

/-- The "en" locale. -/
def enLocale : Locale := ⟨"en", "", ""⟩

/-- The "en-US" locale. -/
def enUSLocale : Locale := ⟨"en", "", "US"⟩

/-- Title-case the first character of a string (models the UTF8-safe
first-rune title-casing in `NewLocale`; ASCII case mapping). -/
def titleize (s : String) : String :=
  match s.data with
  | [] => ""
  | c :: cs => ⟨Char.toUpper c :: cs⟩

/-- Split a character list on a separator character, Go
`strings.Split` style (an empty input gives one empty part). -/
def splitOnCharAux (sep : Char) : List Char → List Char → List (List Char)
  | [], acc => [acc.reverse]
  | c :: cs, acc =>
    if c = sep then acc.reverse :: splitOnCharAux sep cs []
    else splitOnCharAux sep cs (c :: acc)

/-- Split a string on a single-character separator. -/
def splitOnChar (sep : Char) (s : String) : List String :=
  (splitOnCharAux sep s.data []).map String.mk

/-- Trim surrounding whitespace (models `strings.TrimSpace`). -/
def trimSpace (s : String) : String :=
  ⟨((s.data.dropWhile Char.isWhitespace).reverse.dropWhile Char.isWhitespace).reverse⟩

/-- Character-wise string map. -/
def strMap (f : Char → Char) (s : String) : String := ⟨s.data.map f⟩

/-- Models `NewLocale` from `locale.go`: trim and lowercase the
identifier, replace underscores with hyphens, split on hyphens; the
first segment is the language, a 4-character segment is the title-cased
script, a 2- or 3-character segment is the uppercased territory, other
segments are ignored. -/
def NewLocale (id : String) : Locale :=
  let id := strMap (fun c => if c = '_' then '-' else c) (strMap Char.toLower (trimSpace id))
  match splitOnChar '-' id with
  | [] => emptyLocale
  | lang :: rest =>
    rest.foldl
      (fun loc part =>
        if part.length = 4 then { loc with Script := titleize part }
        else if part.length = 2 ∨ part.length = 3 then { loc with Territory := strMap Char.toUpper part }
        else loc)
      ⟨lang, "", ""⟩

/-- Models `Locale.String`: canonical `language[-Script][-Territory]`. -/
def Locale.str (l : Locale) : String :=
  l.Language ++ (if l.Script ≠ "" then "-" ++ l.Script else "")
    ++ (if l.Territory ≠ "" then "-" ++ l.Territory else "")

/-- Models `Locale.IsEmpty`: all three subtags empty. -/
def Locale.IsEmpty (l : Locale) : Bool :=
  l.Language = "" && l.Script = "" && l.Territory = ""

/-- Modelled from the spec: the CLDR parent-locale override table is
generated data not under `src/`; the spec and the `GetParent` doc
comment name its sample entries, the irregular parents
"es-AR" → "es-419" and "sr-Latn" → "en". -/
def parentLocales : List (String × String) :=
  [("es-AR", "es-419"), ("sr-Latn", "en")]

/-- Models `Locale.GetParent`: the empty and "en" identifiers go to the
empty locale; an identifier with a special-case parent goes to it; else
drop the territory, else the script, else fall back to "en". -/
def Locale.GetParent (l : Locale) : Locale :=
  let localeID := l.str
  if localeID = "" ∨ localeID = "en" then emptyLocale
  else
    match alookup parentLocales localeID with
    | some p => NewLocale p
    | none =>
      if l.Territory ≠ "" then ⟨l.Language, l.Script, ""⟩
      else if l.Script ≠ "" then ⟨l.Language, "", ""⟩
      else ⟨"en", "", ""⟩

/-- Iteration of `GetParent` n times: the locale fallback chain. -/
def iterParent : Nat → Locale → Locale
  | 0, l => l
  | n + 1, l => iterParent n l.GetParent

/-- The fallback chain of `l` passes through the "en" locale. -/
def chainHitsEn (l : Locale) : Prop := ∃ k, iterParent k l = enLocale

/-- The currency display modes of `formatter.go`. -/
inductive Display where
  | DisplaySymbol
  | DisplayCode
  | DisplayNone
deriving DecidableEq, Repr

/-- The numbering systems of the number-format data. -/
inductive numberingSystem where
  | latn
  | arab
  | arabExt
  | beng
  | deva
  | mymr
deriving DecidableEq, Repr

/-- The per-locale number format record (the `currencyFormat` struct
consumed by `formatter.go`). -/
structure currencyFormat where
  standardPattern : String
  accountingPattern : String
  decimalSeparator : String
  groupingSeparator : String
  plusSign : String
  minusSign : String
  primaryGroupingSize : Nat
  secondaryGroupingSize : Nat
  minGroupingDigits : Nat
  numSystem : numberingSystem
deriving DecidableEq, Repr

/-- The zero-value `currencyFormat` (what the Go lookup loop yields when
the parent chain is exhausted). -/
def emptyFormat : currencyFormat := ⟨"", "", "", "", "", "", 0, 0, 0, .latn⟩

/-- Modelled from the spec: the generated CLDR number-format table is
static data not under `src/`; these two entries reproduce the "en" and
"de-CH" formats that the spec's §8 scenarios and the formatter tests
exhibit ("en" groups with a comma, "de-CH" groups with an apostrophe,
keeps a dot decimal separator and puts a non-breaking space between the
currency marker and a positive amount). -/
def currencyFormats : List (String × currencyFormat) :=
  [("en", ⟨"¤0.00", "(¤0.00)", ".", ",", "+", "-", 3, 3, 1, .latn⟩),
   ("de-CH", ⟨"¤\u00A00.00;¤-0.00", "", ".", "’", "+", "-", 3, 3, 1, .latn⟩)]

/-- One symbol plus the locales it applies to (the `symbolInfo` struct
of the symbol data). -/
structure symbolInfo where
  symbol : String
  locales : List String
deriving DecidableEq, Repr

/-- Modelled from the spec: the generated CLDR currency-symbol table is
static data not under `src/`; per the spec's §8 scenarios and the
formatter tests, USD renders as "$" both in the default ("en") position
and in "de-CH". -/
def currencySymbols : List (String × List symbolInfo) :=
  [("USD", [⟨"$", ["de-CH", "en"]⟩])]

/-- The symbol lookup loop of `GetSymbol`: scan the entry list for one
covering the current locale identifier, else retry with the parent
until it would become empty (fuel-bounded; 8 exceeds every chain). -/
def symbolSearch (symbols : List symbolInfo) : Nat → Locale → String
  | 0, _ => ""
  | fuel + 1, locale =>
    let localeID := locale.str
    let symbol := (((symbols.find? (fun s => s.locales.contains localeID)).map
      (fun s => s.symbol)).getD "")
    if symbol ≠ "" then symbol
    else
      let p := locale.GetParent
      if p.IsEmpty then "" else symbolSearch symbols fuel p

/-- Models `GetSymbol` from `currency.go`: invalid codes echo back with
`found = false`; codes without symbol data echo back with `found =
true`; "en"/"en-US"/empty locales take the first (default) symbol; other
locales walk the parent chain. -/
def GetSymbol (currencyCode : String) (locale : Locale) : String × Bool :=
  if currencyCode = "" ∨ ¬IsValid currencyCode then (currencyCode, false)
  else
    match alookup currencySymbols currencyCode with
    | none => (currencyCode, true)
    | some symbols =>
      if locale = enLocale ∨ locale = enUSLocale ∨ locale.IsEmpty then
        ((symbols.headD ⟨"", []⟩).symbol, true)
      else (symbolSearch symbols 8 locale, true)

/-- The format lookup loop of `getFormat`: check the current identifier,
else retry with the parent until it would become empty (fuel-bounded; 8
exceeds every chain). -/
def getFormatSearch : Nat → Locale → currencyFormat
  | 0, _ => emptyFormat
  | fuel + 1, locale =>
    match alookup currencyFormats locale.str with
    | some cf => cf
    | none =>
      let p := locale.GetParent
      if p.IsEmpty then emptyFormat else getFormatSearch fuel p

/-- Models `getFormat` from `currency.go`: "en-US" and the empty locale
short-circuit to the "en" format, other locales walk the parent chain. -/
def getFormat (locale : Locale) : currencyFormat :=
  if locale = enUSLocale ∨ locale.IsEmpty then (alookup currencyFormats "en").getD emptyFormat
  else getFormatSearch 8 locale

/-- Models the `Formatter` struct of `formatter.go` with its mutable
configuration fields. -/
structure Formatter where
  locale : Locale
  format : currencyFormat
  AccountingStyle : Bool
  AddPlusSign : Bool
  NoGrouping : Bool
  MinDigits : Nat
  MaxDigits : Nat
  RoundingMode : RoundingMode
  CurrencyDisplay : Display
  SymbolMap : List (String × String)
deriving DecidableEq, Repr

/-- Models `NewFormatter`: resolve the locale's format and set the
documented defaults (MinDigits sentinel, MaxDigits 6, round half up,
symbol display, everything else off). -/
def NewFormatter (locale : Locale) : Formatter :=
  { locale := locale
    format := getFormat locale
    AccountingStyle := false
    AddPlusSign := false
    NoGrouping := false
    MinDigits := DefaultDigits
    MaxDigits := 6
    RoundingMode := .RoundHalfUp
    CurrencyDisplay := .DisplaySymbol
    SymbolMap := [] }

/-- Substring test on character lists. -/
def hasSubList (sub : List Char) : List Char → Bool
  | [] => sub.isEmpty
  | c :: rest => sub.isPrefixOf (c :: rest) || hasSubList sub rest

/-- Substring test on strings (models `strings.Contains`). -/
def strContainsSub (s sub : String) : Bool := hasSubList sub.data s.data

/-- Replace the first occurrence of `old` by `new` (models
`strings.Replace` with count 1). -/
def replaceFirstList (old new : List Char) : List Char → List Char
  | [] => []
  | c :: rest =>
    if old ≠ [] ∧ old.isPrefixOf (c :: rest) then new ++ (c :: rest).drop old.length
    else c :: replaceFirstList old new rest

/-- Replace the first occurrence of `old` by `new` in a string. -/
def replaceFirst (old new s : String) : String := ⟨replaceFirstList old.data new.data s.data⟩

/-- Models `strings.NewReplacer(...).Replace`: scan left to right, at
each position try the pairs in argument order, replace the first match
without overlapping, else copy the character (fuel-bounded by the input
length). -/
def replaceMultiAux (pairs : List (String × String)) : Nat → List Char → List Char
  | 0, s => s
  | _ + 1, [] => []
  | fuel + 1, c :: rest =>
    match pairs.find? (fun p => !p.1.data.isEmpty && p.1.data.isPrefixOf (c :: rest)) with
    | some p => p.2.data ++ replaceMultiAux pairs fuel ((c :: rest).drop p.1.data.length)
    | none => c :: replaceMultiAux pairs fuel rest

/-- Multi-pattern replacement on strings. -/
def replaceMulti (pairs : List (String × String)) (s : String) : String :=
  ⟨replaceMultiAux pairs s.length s.data⟩

/-- Strip trailing zero characters (models `strings.TrimRight` with
cutset "0"). -/
def trimRightZeros (s : String) : String :=
  ⟨(s.data.reverse.dropWhile (fun c => c = '0')).reverse⟩

/-- Join strings with a separator (models `strings.Join`). -/
def joinSep (sep : String) : List String → String
  | [] => ""
  | [x] => x
  | x :: y :: xs => x ++ sep ++ joinSep sep (y :: xs)

/-- Split a list of digits into groups from the right, each of size
`sec` (the secondary-group loop of `groupMajorDigits`; fuel-bounded,
faithful for the positive group sizes the data uses). -/
def chunksFromRight (sec : Nat) : Nat → List Char → List (List Char)
  | 0, s => if s.isEmpty then [] else [s]
  | fuel + 1, s =>
    if s.length = 0 then []
    else if s.length ≤ sec then [s]
    else chunksFromRight sec fuel (s.take (s.length - sec)) ++ [s.drop (s.length - sec)]

/-- Models `Formatter.groupMajorDigits`: group the integer digits with
the primary size nearest the decimal point and secondary sizes beyond,
suppressed when disabled, when the primary size is zero, or when there
are fewer digits than `minGroupingDigits + primaryGroupingSize`. -/
def Formatter.groupMajorDigits (f : Formatter) (majorDigits : String) : String :=
  if f.NoGrouping || f.format.primaryGroupingSize == 0 then majorDigits
  else
    let numDigits := majorDigits.length
    let minDigits := f.format.minGroupingDigits
    let primarySize := f.format.primaryGroupingSize
    let secondarySize := f.format.secondaryGroupingSize
    if numDigits < minDigits + primarySize then majorDigits
    else
      let cut := numDigits - primarySize
      let groups := chunksFromRight secondarySize cut (majorDigits.data.take cut)
        ++ [majorDigits.data.drop cut]
      joinSep f.format.groupingSeparator (groups.map String.mk)

/-- The localized digit glyphs for each non-Latin numbering system
(the `localDigits` map of `formatter.go`). -/
def localDigits (ns : numberingSystem) : String :=
  match ns with
  | .latn => "0123456789"
  | .arab => "٠١٢٣٤٥٦٧٨٩"
  | .arabExt => "۰۱۲۳۴۵۶۷۸۹"
  | .beng => "০১২৩৪৫৬৭৮৯"
  | .deva => "०१२३४५६७८९"
  | .mymr => "၀၁၂၃၄၅၆၇၈၉"

/-- Models `Formatter.localizeDigits`: replace ASCII digits with the
locale's native digits when the numbering system is not Latin. -/
def Formatter.localizeDigits (f : Formatter) (number : String) : String :=
  if f.format.numSystem = .latn then number
  else
    ⟨number.data.map (fun c =>
      if '0' ≤ c ∧ c ≤ '9' then (localDigits f.format.numSystem).data.getD (c.toNat - 48) c
      else c)⟩

/-- Models `Formatter.formatNumber`: resolve the sentinel min/max
digits from the currency, round to the max digits, group the major
digits, strip then re-pad trailing fraction zeros down to the min
digits, join with the locale separator and localize the digits. -/
def Formatter.formatNumber (f : Formatter) (amount : Amount) : String :=
  let minDigits := if f.MinDigits = DefaultDigits then (GetDigits amount.currencyCode).1 else f.MinDigits
  let maxDigits := if f.MaxDigits = DefaultDigits then (GetDigits amount.currencyCode).1 else f.MaxDigits
  let amount := amount.RoundTo maxDigits f.RoundingMode
  let numberParts := splitOnChar '.' amount.Number
  let majorDigits := f.groupMajorDigits (numberParts.headD "")
  let minorDigits := if numberParts.length = 2 then numberParts.getD 1 "" else ""
  let minorDigits :=
    if minDigits < maxDigits then
      let stripped := trimRightZeros minorDigits
      if stripped.length < minDigits then
        stripped ++ String.mk (List.replicate (minDigits - stripped.length) '0')
      else stripped
    else minorDigits
  f.localizeDigits
    (majorDigits ++ (if minorDigits ≠ "" then f.format.decimalSeparator ++ minorDigits else ""))

/-- Models `Formatter.formatCurrency`: the symbol (custom map first,
then the registry), the code, or nothing. -/
def Formatter.formatCurrency (f : Formatter) (currencyCode : String) : String :=
  match f.CurrencyDisplay with
  | .DisplaySymbol =>
    match alookup f.SymbolMap currencyCode with
    | some symbol => symbol
    | none => (GetSymbol currencyCode f.locale).1
  | .DisplayCode => currencyCode
  | .DisplayNone => ""

/-- Models `Formatter.usesAccountingPattern`. -/
def Formatter.usesAccountingPattern (f : Formatter) : Bool :=
  f.AccountingStyle && f.format.accountingPattern ≠ ""

/-- Models `Formatter.getPattern`: select the positive, negative or
plus-signed variant of the semicolon-separated pattern. -/
def Formatter.getPattern (f : Formatter) (amount : Amount) : String :=
  let patterns :=
    if f.usesAccountingPattern then splitOnChar ';' f.format.accountingPattern
    else splitOnChar ';' f.format.standardPattern
  if amount.IsNegative then
    if patterns.length = 1 then "-" ++ patterns.headD "" else patterns.getD 1 ""
  else if f.AddPlusSign then
    if patterns.length = 1 || f.usesAccountingPattern then "+" ++ patterns.headD ""
    else replaceFirst "-" "+" (patterns.getD 1 "")
  else patterns.headD ""

/-- Letter test for the CLDR adjacency rule (models `unicode.IsLetter`
on the characters the claims evaluate, where the ASCII test agrees:
currency markers like "$" start and end with non-letters). -/
def isLetterChar (c : Char) : Bool := c.isAlpha

/-- Models `Formatter.Format`: pick the pattern, flip a negative
amount's sign (the pattern supplies the sign), format the number and
the currency marker, insert the CLDR non-breaking space between a
letter-adjacent marker and the numeral, then substitute the pattern
placeholders. -/
def Formatter.Format (f : Formatter) (amount : Amount) : String :=
  let pattern := f.getPattern amount
  let amount :=
    if amount.IsNegative then
      match amount.Mul "-1" with
      | .ok b => b
      | .error _ => zeroAmount
    else amount
  let formattedNumber := f.formatNumber amount
  let fc := f.formatCurrency amount.CurrencyCode
  let fc :=
    if fc ≠ "" then
      if strContainsSub pattern "0¤" then
        if isLetterChar (fc.data.headD ' ') then "\u00A0" ++ fc else fc
      else if strContainsSub pattern "¤0" then
        if isLetterChar (fc.data.getLastD ' ') then fc ++ "\u00A0" else fc
      else fc
    else fc
  let reps := [("0.00", formattedNumber), ("+", f.format.plusSign), ("-", f.format.minusSign)]
  let reps := reps ++
    (if fc = "" then [("\u00A0¤", ""), ("¤\u00A0", ""), ("¤", "")] else [("¤", fc)])
  replaceMulti reps pattern

/-- Models `strings.Trim` with cutset "()": strip all leading and
trailing parentheses. -/
def trimParens (s : String) : String :=
  let isParen := fun c => c = '(' || c = ')'
  ⟨((s.data.dropWhile isParen).reverse.dropWhile isParen).reverse⟩

/-- The body of `Amount.Scan` after splitting the composite value into
the number and currency-code columns: parse the number; a blank or
exactly-three-space code with a zero number yields the zero value;
otherwise an empty or invalid code is an error. -/
def scanPair (n currencyCode : String) : Except AmountError Amount :=
  match parseDecimal n with
  | none => .error (.invalidNumber n)
  | some number =>
    if (currencyCode = "" ∨ currencyCode = "   ") ∧ number.cmp zeroDec = 0 then
      .ok ⟨number, ""⟩
    else if currencyCode = "" ∨ ¬IsValid currencyCode then
      .error (.invalidCurrencyCode currencyCode)
    else .ok ⟨number, currencyCode⟩

/-- Models `Amount.Scan` on a string source: an empty input leaves the
receiver `a` unchanged; otherwise trim parentheses, split on commas and
decode the first two columns.  `none` models the Go runtime panic when
there is no second column (`values[1]` out of range). -/
def Amount.Scan (a : Amount) (src : String) : Option (Except AmountError Amount) :=
  if src.length = 0 then some (.ok a)
  else
    match splitOnChar ',' (trimParens src) with
    | n :: currencyCode :: _ => some (scanPair n currencyCode)
    | _ => none

/-- Follows the spec's words (refinement reference): `Amount.Add`
computed always in the larger 39-digit context, the single-context
implementation the spec says the dual-context selection must match. -/
def Add39 (a b : Amount) : Except AmountError Amount :=
  if a.currencyCode ≠ b.currencyCode then
    if a.Equal zeroAmount then .ok b
    else if b.Equal zeroAmount then .ok a
    else .error (.mismatch a b)
  else .ok ⟨ctxAdd 39 a.number b.number, a.currencyCode⟩

/-- Follows the spec's words (refinement reference): `Amount.Sub` in the
fixed 39-digit context. -/
def Sub39 (a b : Amount) : Except AmountError Amount :=
  if a.currencyCode ≠ b.currencyCode then
    if a.Equal zeroAmount then .ok ⟨b.number.neg, b.currencyCode⟩
    else if b.Equal zeroAmount then .ok a
    else .error (.mismatch a b)
  else .ok ⟨ctxSub 39 a.number b.number, a.currencyCode⟩

/-- Follows the spec's words (refinement reference): `Amount.Mul` in the
fixed 39-digit context. -/
def Mul39 (a : Amount) (n : String) : Except AmountError Amount :=
  match parseDecimal n with
  | none => .error (.invalidNumber n)
  | some m => .ok ⟨ctxMul 39 a.number m, a.currencyCode⟩

/-- Follows the spec's words (refinement reference): `Amount.Convert` in
the fixed 39-digit context. -/
def Convert39 (a : Amount) (currencyCode rate : String) : Except AmountError Amount :=
  if currencyCode = "" ∨ ¬IsValid currencyCode then .error (.invalidCurrencyCode currencyCode)
  else match parseDecimal rate with
    | none => .error (.invalidNumber rate)
    | some r => .ok ⟨ctxMul 39 a.number r, currencyCode⟩

/-- An amount with a non-empty currency code never equals the zero
value, whose code is empty. -/
theorem equal_zero_of_code_ne (a : Amount) (h : a.currencyCode ≠ "") :
    a.Equal zeroAmount = false := by
  unfold Amount.Equal
  exact if_pos h

/-- The zero value equals itself. -/
theorem zero_equal_zero : zeroAmount.Equal zeroAmount = true := by decide

/-- C1: for every Amount with a non-empty registered currency code, Add
and Sub treat the zero-value Amount as the arithmetic identity:
`a + 0 = a`, `0 + a = a`, `a - 0 = a`, and `0 - a` is the negation of
`a`'s number carrying `a`'s currency code. -/
theorem C1_zero_identity (a : Amount) (h1 : a.currencyCode ≠ "")
    (h2 : IsValid a.currencyCode = true) :
    a.Add zeroAmount = .ok a ∧ zeroAmount.Add a = .ok a ∧
    a.Sub zeroAmount = .ok a ∧ zeroAmount.Sub a = .ok ⟨a.number.neg, a.currencyCode⟩ := by
  have hne : a.currencyCode ≠ zeroAmount.currencyCode := h1
  have hne' : zeroAmount.currencyCode ≠ a.currencyCode := fun h => h1 h.symm
  have hA := equal_zero_of_code_ne a h1
  refine ⟨?_, ?_, ?_, ?_⟩
  · unfold Amount.Add
    rw [if_pos hne, hA]
    simp [zero_equal_zero]
  · unfold Amount.Add
    rw [if_pos hne']
    simp [zero_equal_zero]
  · unfold Amount.Sub
    rw [if_pos hne, hA]
    simp [zero_equal_zero]
  · unfold Amount.Sub
    rw [if_pos hne']
    simp [zero_equal_zero]

/-- Witness for C1 at the concrete amount 20.99 USD. -/
theorem C1_zero_identity_witness :
    Amount.Add ⟨⟨false, 2099, -2, .finite⟩, "USD"⟩ zeroAmount
        = .ok ⟨⟨false, 2099, -2, .finite⟩, "USD"⟩ ∧
    Amount.Add zeroAmount ⟨⟨false, 2099, -2, .finite⟩, "USD"⟩
        = .ok ⟨⟨false, 2099, -2, .finite⟩, "USD"⟩ ∧
    Amount.Sub ⟨⟨false, 2099, -2, .finite⟩, "USD"⟩ zeroAmount
        = .ok ⟨⟨false, 2099, -2, .finite⟩, "USD"⟩ ∧
    Amount.Sub zeroAmount ⟨⟨false, 2099, -2, .finite⟩, "USD"⟩
        = .ok ⟨⟨true, 2099, -2, .finite⟩, "USD"⟩ :=
  C1_zero_identity ⟨⟨false, 2099, -2, .finite⟩, "USD"⟩ (by decide) (by decide)

/-- C2: Add and Sub on two amounts with distinct non-empty currency
codes fail with the mismatch error identifying both operands, and Cmp
fails with it whenever the codes differ at all (no zero-value
exemption). -/
theorem C2_mismatch_safety (a b : Amount) (hab : a.currencyCode ≠ b.currencyCode) :
    (a.currencyCode ≠ "" → b.currencyCode ≠ "" →
      a.Add b = .error (.mismatch a b) ∧ a.Sub b = .error (.mismatch a b)) ∧
    a.Cmp b = .error (.mismatch a b) := by
  constructor
  · intro ha hb
    have hA := equal_zero_of_code_ne a ha
    have hB := equal_zero_of_code_ne b hb
    constructor
    · unfold Amount.Add
      rw [if_pos hab, hA, hB]
      simp
    · unfold Amount.Sub
      rw [if_pos hab, hA, hB]
      simp
  · unfold Amount.Cmp
    rw [if_pos hab]

/-- Witness for C2 at the concrete amounts 20.99 USD and 99.99 EUR. -/
theorem C2_mismatch_safety_witness :
    Amount.Add ⟨⟨false, 2099, -2, .finite⟩, "USD"⟩ ⟨⟨false, 9999, -2, .finite⟩, "EUR"⟩
        = .error (.mismatch ⟨⟨false, 2099, -2, .finite⟩, "USD"⟩ ⟨⟨false, 9999, -2, .finite⟩, "EUR"⟩) ∧
    Amount.Sub ⟨⟨false, 2099, -2, .finite⟩, "USD"⟩ ⟨⟨false, 9999, -2, .finite⟩, "EUR"⟩
        = .error (.mismatch ⟨⟨false, 2099, -2, .finite⟩, "USD"⟩ ⟨⟨false, 9999, -2, .finite⟩, "EUR"⟩) ∧
    Amount.Cmp ⟨⟨false, 2099, -2, .finite⟩, "USD"⟩ ⟨⟨false, 9999, -2, .finite⟩, "EUR"⟩
        = .error (.mismatch ⟨⟨false, 2099, -2, .finite⟩, "USD"⟩ ⟨⟨false, 9999, -2, .finite⟩, "EUR"⟩) := by
  have h := C2_mismatch_safety ⟨⟨false, 2099, -2, .finite⟩, "USD"⟩
    ⟨⟨false, 9999, -2, .finite⟩, "EUR"⟩ (by decide)
  exact ⟨(h.1 (by decide) (by decide)).1, (h.1 (by decide) (by decide)).2, h.2⟩

/-- C5: RoundTo with RoundHalfEven rounds a tie to the nearest even
final digit (12.345 and 12.335 both round to 12.34 at two digits) and
rounds away from zero when the discarded remainder exceeds a half
(12.346 rounds to 12.35). -/
theorem C5_round_half_even :
    NewAmount "12.345" "USD" = .ok ⟨⟨false, 12345, -3, .finite⟩, "USD"⟩ ∧
    (Amount.RoundTo ⟨⟨false, 12345, -3, .finite⟩, "USD"⟩ 2 .RoundHalfEven).Number = "12.34" ∧
    NewAmount "12.335" "USD" = .ok ⟨⟨false, 12335, -3, .finite⟩, "USD"⟩ ∧
    (Amount.RoundTo ⟨⟨false, 12335, -3, .finite⟩, "USD"⟩ 2 .RoundHalfEven).Number = "12.34" ∧
    (Amount.RoundTo ⟨⟨false, 12346, -3, .finite⟩, "USD"⟩ 2 .RoundHalfEven).Number = "12.35" ∧
    (Amount.RoundTo ⟨⟨false, 12344, -3, .finite⟩, "USD"⟩ 2 .RoundHalfEven).Number = "12.34" := by
  decide

/-- C10: every observer method of Amount is total on the zero value:
`Number` gives "0", `String` gives "0 ", `IsZero` is true, `IsPositive`
and `IsNegative` are false, and `Equal` returns normally. -/
theorem C10_zero_value_observers :
    Amount.Number zeroAmount = "0" ∧
    Amount.Str zeroAmount = "0 " ∧
    Amount.IsZero zeroAmount = true ∧
    Amount.IsPositive zeroAmount = false ∧
    Amount.IsNegative zeroAmount = false ∧
    Amount.Equal zeroAmount zeroAmount = true := by
  decide

/-- C4 counterexample: `NewAmount` rejects an empty currency code even
though `IsValid ""` is true, and accepts the non-finite numeral "NaN"
without an `InvalidNumberError`. -/
theorem C4_counterexample :
    NewAmount "1" "" = .error (.invalidCurrencyCode "") ∧
    NewAmount "NaN" "USD" = .ok ⟨⟨false, 0, 0, .nan⟩, "USD"⟩ ∧
    IsValid "" = true := by
  decide

/-- C4 (amended): `NewAmount(n, code)` fails with `InvalidNumberError`
exactly when `n` fails decimal parsing (the non-finite specials NaN and
infinity parse successfully and are accepted); it fails with
`InvalidCurrencyCodeError` exactly when the number parses and the code
is empty or not registry-valid; with a parsable number and a non-empty
valid code it succeeds. -/
theorem C4_error_conditions (n currencyCode : String) :
    (NewAmount n currencyCode = .error (.invalidNumber n) ↔ parseDecimal n = none) ∧
    (NewAmount n currencyCode = .error (.invalidCurrencyCode currencyCode) ↔
      parseDecimal n ≠ none ∧ (currencyCode = "" ∨ IsValid currencyCode = false)) ∧
    (∀ d, parseDecimal n = some d → currencyCode ≠ "" → IsValid currencyCode = true →
      NewAmount n currencyCode = .ok ⟨d, currencyCode⟩) := by
  cases hp : parseDecimal n with
  | none =>
    have hN : NewAmount n currencyCode = .error (.invalidNumber n) := by
      unfold NewAmount
      rw [hp]
    rw [hN]
    refine ⟨by simp, by simp, ?_⟩
    intro d hd
    exact absurd hd (by simp)
  | some num =>
    have hN : NewAmount n currencyCode =
        if currencyCode = "" ∨ ¬IsValid currencyCode then
          .error (.invalidCurrencyCode currencyCode)
        else .ok ⟨num, currencyCode⟩ := by
      unfold NewAmount
      rw [hp]
    rw [hN]
    by_cases hc : currencyCode = "" ∨ ¬(IsValid currencyCode = true)
    · rw [if_pos hc]
      refine ⟨by simp, ?_, ?_⟩
      · simp only [Bool.not_eq_true] at hc
        simp [hc]
      · intro d hd hc1 hc2
        cases hc with
        | inl h => exact absurd h hc1
        | inr h => exact absurd hc2 h
    · rw [if_neg hc]
      push_neg at hc
      refine ⟨by simp, ?_, ?_⟩
      · simp [hc.1, hc.2]
      · intro d hd hc1 hc2
        cases hd
        rfl

/-- Witness for C4 at the concrete input ("10.99", "USD"). -/
theorem C4_error_conditions_witness :
    NewAmount "10.99" "USD" = .ok ⟨⟨false, 1099, -2, .finite⟩, "USD"⟩ :=
  (C4_error_conditions "10.99" "USD").2.2 ⟨false, 1099, -2, .finite⟩
    (by decide) (by decide) (by decide)

/-- C6 counterexample: a fresh formatter's maximum fraction digits
default to 6, not to the `DefaultDigits` sentinel the claim states. -/
theorem C6_counterexample :
    (NewFormatter (NewLocale "en")).MaxDigits ≠ DefaultDigits := by
  decide

/-- C6 (amended): `NewFormatter` defaults to the `DefaultDigits`
sentinel for the minimum fraction digits (resolved to the currency's
own digits at format time), 6 for the maximum fraction digits,
round-half-up, symbol display, accounting style off, plus sign off and
grouping on; the sentinel resolution is visible in formatting 59 USD as
"$59.00". -/
theorem C6_formatter_defaults (locale : Locale) :
    (NewFormatter locale).MinDigits = DefaultDigits ∧
    (NewFormatter locale).MaxDigits = 6 ∧
    (NewFormatter locale).RoundingMode = .RoundHalfUp ∧
    (NewFormatter locale).CurrencyDisplay = .DisplaySymbol ∧
    (NewFormatter locale).AccountingStyle = false ∧
    (NewFormatter locale).AddPlusSign = false ∧
    (NewFormatter locale).NoGrouping = false ∧
    (NewFormatter locale).locale = locale ∧
    (NewFormatter locale).format = getFormat locale ∧
    Formatter.Format (NewFormatter (NewLocale "en")) ⟨⟨false, 59, 0, .finite⟩, "USD"⟩
      = "$59.00" :=
  ⟨rfl, rfl, rfl, rfl, rfl, rfl, rfl, rfl, rfl, by decide⟩

/-- C7: the amount 1234.59 USD formats as "$1,234.59" in the "en"
locale and as dollar sign, non-breaking space, "1’234.59" (apostrophe
grouping separator) in the "de-CH" locale. -/
theorem C7_concrete_formatting :
    NewAmount "1234.59" "USD" = .ok ⟨⟨false, 123459, -2, .finite⟩, "USD"⟩ ∧
    Formatter.Format (NewFormatter (NewLocale "en")) ⟨⟨false, 123459, -2, .finite⟩, "USD"⟩
      = "$1,234.59" ∧
    Formatter.Format (NewFormatter (NewLocale "de-CH")) ⟨⟨false, 123459, -2, .finite⟩, "USD"⟩
      = "$\u00A01’234.59" ∧
    (NewFormatter (NewLocale "de-CH")).format.groupingSeparator = "’" := by
  decide

/-- C8 counterexample: a currency-code column of two spaces paired with
a zero number does not decode to the zero value; `Scan` only tolerates
the empty and the exactly-three-space code, so this input fails with
`InvalidCurrencyCodeError`. -/
theorem C8_counterexample :
    Amount.Scan zeroAmount "(0,  )" = some (.error (.invalidCurrencyCode "  ")) := by
  decide

/-- C8 (amended): `Scan` decodes a currency-code column that is empty
or exactly three spaces, paired with a zero number, to the zero-value
Amount without error; other invalid codes fail with
`InvalidCurrencyCodeError` and malformed numbers with
`InvalidNumberError`; an empty source leaves the receiver unchanged. -/
theorem C8_scan_zero_value (a : Amount) (n : String) (d : Dec)
    (h1 : parseDecimal n = some d) (h2 : d.cmp zeroDec = 0) :
    scanPair n "" = .ok ⟨d, ""⟩ ∧
    scanPair n "   " = .ok ⟨d, ""⟩ ∧
    Amount.Scan a "" = some (.ok a) ∧
    Amount.Scan zeroAmount "(0,   )" = some (.ok ⟨⟨false, 0, 0, .finite⟩, ""⟩) ∧
    Amount.Scan zeroAmount "(abc,USD)" = some (.error (.invalidNumber "abc")) ∧
    Amount.Scan zeroAmount "(3.45,)" = some (.error (.invalidCurrencyCode "")) ∧
    Amount.Scan zeroAmount "(3.45,XYZ)" = some (.error (.invalidCurrencyCode "XYZ")) := by
  refine ⟨?_, ?_, ?_, by decide, by decide, by decide, by decide⟩
  · have hS : scanPair n "" =
        if (("" : String) = "" ∨ ("" : String) = "   ") ∧ d.cmp zeroDec = 0 then
          .ok ⟨d, ""⟩
        else if ("" : String) = "" ∨ ¬IsValid "" then .error (.invalidCurrencyCode "")
        else .ok ⟨d, ""⟩ := by
      unfold scanPair
      rw [h1]
    rw [hS, if_pos ⟨Or.inl rfl, h2⟩]
  · have hS : scanPair n "   " =
        if (("   " : String) = "" ∨ ("   " : String) = "   ") ∧ d.cmp zeroDec = 0 then
          .ok ⟨d, ""⟩
        else if ("   " : String) = "" ∨ ¬IsValid "   " then
          .error (.invalidCurrencyCode "   ")
        else .ok ⟨d, "   "⟩ := by
      unfold scanPair
      rw [h1]
    rw [hS, if_pos ⟨Or.inr rfl, h2⟩]
  · unfold Amount.Scan
    rw [if_pos (show ("" : String).length = 0 from rfl)]

/-- Witness for C8 at the concrete numeral "0.00". -/
theorem C8_scan_zero_value_witness :
    scanPair "0.00" "" = .ok ⟨⟨false, 0, -2, .finite⟩, ""⟩ ∧
    scanPair "0.00" "   " = .ok ⟨⟨false, 0, -2, .finite⟩, ""⟩ := by
  have h := C8_scan_zero_value zeroAmount "0.00" ⟨false, 0, -2, .finite⟩ (by decide) (by decide)
  exact ⟨h.1, h.2.1⟩

/-- The dynamically selected precision is always at least 19. -/
theorem decPrecision_ge (ds : List Dec) : 19 ≤ decPrecision ds := by
  unfold decPrecision
  split
  · omega
  · omega

/-- Rounding to a precision of at least 19 digits leaves a coefficient
of at most 19 digits untouched. -/
theorem applyPrecision_of_le (p : Nat) (neg : Bool) (c : Nat) (e : Int)
    (h : numDigits10 c ≤ 19) (hp : 19 ≤ p) :
    applyPrecision p neg c e = ⟨neg, c, e, .finite⟩ := by
  unfold applyPrecision
  rw [if_pos (le_trans h hp)]

/-- Addition of finite decimals whose exact sum fits in 19 digits gives
the same result at any precision of at least 19 as at 39. -/
theorem ctxAdd_eq_of_small (p : Nat) (hp : 19 ≤ p) (a b : Dec)
    (ha : a.form = .finite) (hb : b.form = .finite)
    (h : numDigits10 (addExact a b).1.natAbs ≤ 19) :
    ctxAdd p a b = ctxAdd 39 a b := by
  obtain ⟨an, ac, ae, af⟩ := a
  obtain ⟨bn, bc, be, bf⟩ := b
  simp only at ha hb
  subst ha hb
  show applyPrecision p _ _ _ = applyPrecision 39 _ _ _
  rw [applyPrecision_of_le _ _ _ _ h hp, applyPrecision_of_le _ _ _ _ h (by omega)]

/-- Multiplication of finite decimals whose exact product fits in 19
digits gives the same result at any precision of at least 19 as at
39. -/
theorem ctxMul_eq_of_small (p : Nat) (hp : 19 ≤ p) (a b : Dec)
    (ha : a.form = .finite) (hb : b.form = .finite)
    (h : numDigits10 (a.coeff * b.coeff) ≤ 19) :
    ctxMul p a b = ctxMul 39 a b := by
  obtain ⟨an, ac, ae, af⟩ := a
  obtain ⟨bn, bc, be, bf⟩ := b
  simp only at ha hb
  subst ha hb
  show applyPrecision p _ _ _ = applyPrecision 39 _ _ _
  rw [applyPrecision_of_le _ _ _ _ h hp, applyPrecision_of_le _ _ _ _ h (by omega)]

/-- C3 counterexample: adding 1E+20 and 1 (both coefficients fit in 32
bits, so the 19-digit context is selected) rounds the exact 21-digit sum
down to 19 significant digits, while the 39-digit context keeps it
exact: the dual-context selection is not observationally equivalent to
always using the larger context. -/
theorem C3_counterexample :
    NewAmount "1E+20" "USD" = .ok ⟨⟨false, 1, 20, .finite⟩, "USD"⟩ ∧
    NewAmount "1" "USD" = .ok ⟨⟨false, 1, 0, .finite⟩, "USD"⟩ ∧
    Amount.Add ⟨⟨false, 1, 20, .finite⟩, "USD"⟩ ⟨⟨false, 1, 0, .finite⟩, "USD"⟩
      = .ok ⟨⟨false, 1000000000000000000, 2, .finite⟩, "USD"⟩ ∧
    Add39 ⟨⟨false, 1, 20, .finite⟩, "USD"⟩ ⟨⟨false, 1, 0, .finite⟩, "USD"⟩
      = .ok ⟨⟨false, 100000000000000000001, 0, .finite⟩, "USD"⟩ ∧
    Dec.cmp ⟨false, 1000000000000000000, 2, .finite⟩
      ⟨false, 100000000000000000001, 0, .finite⟩ ≠ 0 := by
  decide

/-- C3 (amended): for Add, Sub, Mul and Convert, the dynamically
selected context produces results identical to the fixed 39-digit
context whenever the exact result coefficient fits within 19
significant digits; beyond that (and for Div's rounded quotients) the
19-digit context may round where the 39-digit context would not. -/
theorem C3_dual_context (a b : Amount) (n currencyCode rate : String) :
    (a.number.form = .finite → b.number.form = .finite →
      numDigits10 (addExact a.number b.number).1.natAbs ≤ 19 →
      a.Add b = Add39 a b) ∧
    (a.number.form = .finite → b.number.form = .finite →
      numDigits10 (addExact a.number b.number.neg).1.natAbs ≤ 19 →
      a.Sub b = Sub39 a b) ∧
    (∀ m : Dec, parseDecimal n = some m → a.number.form = .finite → m.form = .finite →
      numDigits10 (a.number.coeff * m.coeff) ≤ 19 →
      a.Mul n = Mul39 a n) ∧
    (∀ r : Dec, parseDecimal rate = some r → a.number.form = .finite → r.form = .finite →
      numDigits10 (a.number.coeff * r.coeff) ≤ 19 →
      a.Convert currencyCode rate = Convert39 a currencyCode rate) := by
  refine ⟨?_, ?_, ?_, ?_⟩
  · intro ha hb h
    unfold Amount.Add Add39
    split
    · rfl
    · rw [ctxAdd_eq_of_small _ (decPrecision_ge _) _ _ ha hb h]
  · intro ha hb h
    unfold Amount.Sub Sub39
    split
    · rfl
    · unfold ctxSub
      rw [ctxAdd_eq_of_small (decPrecision [a.number, b.number]) (decPrecision_ge _)
        a.number b.number.neg ha (show b.number.neg.form = .finite from hb) h]
  · intro m hm ha hmf h
    unfold Amount.Mul Mul39
    rw [hm]
    show (Except.ok ⟨ctxMul (decPrecision [a.number, m]) a.number m, a.currencyCode⟩ :
        Except AmountError Amount)
      = Except.ok ⟨ctxMul 39 a.number m, a.currencyCode⟩
    rw [ctxMul_eq_of_small _ (decPrecision_ge _) _ _ ha hmf h]
  · intro r hr ha hrf h
    unfold Amount.Convert Convert39
    split
    · rfl
    · rw [hr]
      show (Except.ok ⟨ctxMul (decPrecision [a.number, r]) a.number r, currencyCode⟩ :
          Except AmountError Amount)
        = Except.ok ⟨ctxMul 39 a.number r, currencyCode⟩
      rw [ctxMul_eq_of_small _ (decPrecision_ge _) _ _ ha hrf h]

/-- Witness for C3 at concrete small amounts: 20.99 USD plus 3.50 USD,
minus 3.50 USD, times 2 and converted to EUR at 0.91 agree with the
39-digit context. -/
theorem C3_dual_context_witness :
    Amount.Add ⟨⟨false, 2099, -2, .finite⟩, "USD"⟩ ⟨⟨false, 350, -2, .finite⟩, "USD"⟩
      = Add39 ⟨⟨false, 2099, -2, .finite⟩, "USD"⟩ ⟨⟨false, 350, -2, .finite⟩, "USD"⟩ ∧
    Amount.Sub ⟨⟨false, 2099, -2, .finite⟩, "USD"⟩ ⟨⟨false, 350, -2, .finite⟩, "USD"⟩
      = Sub39 ⟨⟨false, 2099, -2, .finite⟩, "USD"⟩ ⟨⟨false, 350, -2, .finite⟩, "USD"⟩ ∧
    Amount.Mul ⟨⟨false, 2099, -2, .finite⟩, "USD"⟩ "2"
      = Mul39 ⟨⟨false, 2099, -2, .finite⟩, "USD"⟩ "2" ∧
    Amount.Convert ⟨⟨false, 2099, -2, .finite⟩, "USD"⟩ "EUR" "0.91"
      = Convert39 ⟨⟨false, 2099, -2, .finite⟩, "USD"⟩ "EUR" "0.91" := by
  have h := C3_dual_context ⟨⟨false, 2099, -2, .finite⟩, "USD"⟩
    ⟨⟨false, 350, -2, .finite⟩, "USD"⟩ "2" "EUR" "0.91"
  exact ⟨h.1 (by decide) (by decide) (by decide),
    h.2.1 (by decide) (by decide) (by decide),
    h.2.2.1 ⟨false, 2, 0, .finite⟩ (by decide) (by decide) (by decide) (by decide),
    h.2.2.2 ⟨false, 91, -2, .finite⟩ (by decide) (by decide) (by decide) (by decide)⟩

/-- Stepping the parent chain commutes with taking one more parent at
the end. -/
theorem iterParent_succ_outer (n : Nat) (l : Locale) :
    iterParent (n + 1) l = (iterParent n l).GetParent := by
  induction n generalizing l with
  | zero => rfl
  | succ k ih =>
    show iterParent (k + 1) l.GetParent = (iterParent (k + 1) l).GetParent
    rw [ih l.GetParent]
    rfl

/-- The empty locale is a fixed point of the parent chain. -/
theorem iter_empty (n : Nat) : iterParent n emptyLocale = emptyLocale := by
  induction n with
  | zero => rfl
  | succ k ih =>
    show iterParent k emptyLocale.GetParent = emptyLocale
    rw [show emptyLocale.GetParent = emptyLocale by decide]
    exact ih

/-- Emptiness of a locale characterizes equality with the empty locale. -/
theorem isEmpty_iff (l : Locale) : l.IsEmpty = true ↔ l = emptyLocale := by
  obtain ⟨a, b, c⟩ := l
  unfold Locale.IsEmpty
  simp [emptyLocale, and_assoc]

/-- Once the chain is empty it stays empty. -/
theorem iter_isEmpty_mono (n : Nat) (l : Locale) (h : (iterParent n l).IsEmpty = true) :
    (iterParent (n + 1) l).IsEmpty = true := by
  rw [iterParent_succ_outer, (isEmpty_iff _).mp h]
  decide

/-- Appending two empty parts leaves a string unchanged. -/
theorem str_append_empty (s : String) : s ++ "" = s := by
  obtain ⟨l⟩ := s
  show String.mk (l ++ []) = String.mk l
  rw [List.append_nil]

/-- The identifier of a language-only locale is its language. -/
theorem str_lang (lang : String) : Locale.str ⟨lang, "", ""⟩ = lang := by
  show lang ++ "" ++ "" = lang
  rw [str_append_empty, str_append_empty]

/-- The identifier of a language-script locale. -/
theorem str_lang_script (lang script : String) (hs : script ≠ "") :
    Locale.str ⟨lang, script, ""⟩ = lang ++ ("-" ++ script) := by
  unfold Locale.str
  rw [if_pos hs, if_neg (fun h => h rfl), str_append_empty]

/-- The identifier of a locale with a territory. -/
theorem str_terr (lang script terr : String) (ht : terr ≠ "") :
    Locale.str ⟨lang, script, terr⟩ =
      (lang ++ (if script ≠ "" then "-" ++ script else "")) ++ ("-" ++ terr) := by
  unfold Locale.str
  rw [if_pos ht]

/-- A hyphenated identifier is never empty. -/
theorem append_dash_ne_empty (x t : String) : x ++ ("-" ++ t) ≠ "" := by
  intro h
  obtain ⟨xd⟩ := x
  obtain ⟨td⟩ := t
  have hd : xd ++ ('-' :: td) = [] := congrArg String.data h
  simp at hd

/-- A hyphenated identifier is never "en". -/
theorem append_dash_ne_en (x t : String) : x ++ ("-" ++ t) ≠ "en" := by
  intro h
  obtain ⟨xd⟩ := x
  obtain ⟨td⟩ := t
  have hd : xd ++ ('-' :: td) = ['e', 'n'] := congrArg String.data h
  rcases xd with _ | ⟨a, xd2⟩
  · rw [List.nil_append] at hd
    have h2 := List.cons.inj hd
    exact absurd h2.1 (by decide)
  rcases xd2 with _ | ⟨b, xd3⟩
  · rw [List.cons_append, List.nil_append] at hd
    have h2 := List.cons.inj hd
    have h3 := List.cons.inj h2.2
    exact absurd h3.1 (by decide)
  · have hlen := congrArg List.length hd
    simp only [List.length_append, List.length_cons, List.length_nil] at hlen
    omega

/-- Unfolding a two-entry association list lookup. -/
theorem alookup_pair {α : Type} (k1 k2 key : String) (v1 v2 : α) :
    alookup [(k1, v1), (k2, v2)] key =
      if k1 = key then some v1 else if k2 = key then some v2 else none := by
  unfold alookup
  by_cases h1 : k1 = key
  · have e1 : (k1 == key) = true := by simp [h1]
    simp [List.find?, e1, h1]
  · have e1 : (k1 == key) = false := by simp [h1]
    by_cases h2 : k2 = key
    · have e2 : (k2 == key) = true := by simp [h2]
      simp [List.find?, e1, e2, h1, h2]
    · have e2 : (k2 == key) = false := by simp [h2]
      simp [List.find?, e1, e2, h1, h2]

/-- Computing `GetParent` on a locale whose identifier is neither empty, "en",
nor a special-case key reduces to the structural fallback. -/
theorem getParent_of_generic (l : Locale) (h0 : l.str ≠ "") (h1 : l.str ≠ "en")
    (h2 : l.str ≠ "es-AR") (h3 : l.str ≠ "sr-Latn") :
    l.GetParent = (if l.Territory ≠ "" then ⟨l.Language, l.Script, ""⟩
      else if l.Script ≠ "" then ⟨l.Language, "", ""⟩ else ⟨"en", "", ""⟩) := by
  unfold Locale.GetParent
  have hl : alookup parentLocales l.str = none := by
    unfold parentLocales
    rw [alookup_pair]
    rw [if_neg (fun h => h2 h.symm), if_neg (fun h => h3 h.symm)]
  rw [if_neg ?_, hl]
  rintro (h | h)
  · exact h0 h
  · exact h1 h

/-- Every language-only chain empties within 5 steps. -/
theorem chain_lang (lang : String) : (iterParent 5 ⟨lang, "", ""⟩).IsEmpty = true := by
  by_cases h0 : lang = ""
  · subst h0; decide
  by_cases h1 : lang = "en"
  · subst h1; decide
  by_cases h2 : lang = "es-AR"
  · subst h2; decide
  by_cases h3 : lang = "sr-Latn"
  · subst h3; decide
  have hstr := str_lang lang
  have hp : Locale.GetParent ⟨lang, "", ""⟩ = ⟨"en", "", ""⟩ := by
    rw [getParent_of_generic _ (by rw [hstr]; exact h0) (by rw [hstr]; exact h1)
      (by rw [hstr]; exact h2) (by rw [hstr]; exact h3)]
    rw [if_neg (fun hx => hx rfl), if_neg (fun hx => hx rfl)]
  show (iterParent 4 (Locale.GetParent ⟨lang, "", ""⟩)).IsEmpty = true
  rw [hp]
  decide

/-- Every territory-free chain empties within 6 steps. -/
theorem chain_script (lang script : String) :
    (iterParent 6 ⟨lang, script, ""⟩).IsEmpty = true := by
  by_cases hs : script = ""
  · subst hs
    exact iter_isEmpty_mono 5 _ (chain_lang lang)
  have hstr := str_lang_script lang script hs
  by_cases h2 : Locale.str ⟨lang, script, ""⟩ = "es-AR"
  · have hp : Locale.GetParent ⟨lang, script, ""⟩ = NewLocale "es-419" := by
      unfold Locale.GetParent
      rw [if_neg ?_]
      · unfold parentLocales
        rw [alookup_pair, if_pos h2.symm]
      · rintro (h | h)
        · exact append_dash_ne_empty _ _ (hstr ▸ h)
        · exact append_dash_ne_en _ _ (hstr ▸ h)
    show (iterParent 5 (Locale.GetParent ⟨lang, script, ""⟩)).IsEmpty = true
    rw [hp]
    decide
  by_cases h3 : Locale.str ⟨lang, script, ""⟩ = "sr-Latn"
  · have hp : Locale.GetParent ⟨lang, script, ""⟩ = NewLocale "en" := by
      unfold Locale.GetParent
      rw [if_neg ?_]
      · unfold parentLocales
        rw [alookup_pair, if_neg (fun h => h2 h.symm), if_pos h3.symm]
      · rintro (h | h)
        · exact append_dash_ne_empty _ _ (hstr ▸ h)
        · exact append_dash_ne_en _ _ (hstr ▸ h)
    show (iterParent 5 (Locale.GetParent ⟨lang, script, ""⟩)).IsEmpty = true
    rw [hp]
    decide
  · have hp : Locale.GetParent ⟨lang, script, ""⟩ = ⟨lang, "", ""⟩ := by
      rw [getParent_of_generic _ (fun h => append_dash_ne_empty _ _ (hstr ▸ h))
        (fun h => append_dash_ne_en _ _ (hstr ▸ h)) h2 h3]
      rw [if_neg (fun h => h rfl), if_pos hs]
    show (iterParent 5 (Locale.GetParent ⟨lang, script, ""⟩)).IsEmpty = true
    rw [hp]
    exact chain_lang lang

/-- Every parent chain empties within 7 steps. -/
theorem chain_full (l : Locale) : (iterParent 7 l).IsEmpty = true := by
  obtain ⟨lang, script, terr⟩ := l
  by_cases ht : terr = ""
  · subst ht
    exact iter_isEmpty_mono 6 _ (chain_script lang script)
  have hstr := str_terr lang script terr ht
  by_cases h2 : Locale.str ⟨lang, script, terr⟩ = "es-AR"
  · have hp : Locale.GetParent ⟨lang, script, terr⟩ = NewLocale "es-419" := by
      unfold Locale.GetParent
      rw [if_neg ?_]
      · unfold parentLocales
        rw [alookup_pair, if_pos h2.symm]
      · rintro (h | h)
        · exact append_dash_ne_empty _ _ (hstr ▸ h)
        · exact append_dash_ne_en _ _ (hstr ▸ h)
    show (iterParent 6 (Locale.GetParent ⟨lang, script, terr⟩)).IsEmpty = true
    rw [hp]
    decide
  by_cases h3 : Locale.str ⟨lang, script, terr⟩ = "sr-Latn"
  · have hp : Locale.GetParent ⟨lang, script, terr⟩ = NewLocale "en" := by
      unfold Locale.GetParent
      rw [if_neg ?_]
      · unfold parentLocales
        rw [alookup_pair, if_neg (fun h => h2 h.symm), if_pos h3.symm]
      · rintro (h | h)
        · exact append_dash_ne_empty _ _ (hstr ▸ h)
        · exact append_dash_ne_en _ _ (hstr ▸ h)
    show (iterParent 6 (Locale.GetParent ⟨lang, script, terr⟩)).IsEmpty = true
    rw [hp]
    decide
  · have hp : Locale.GetParent ⟨lang, script, terr⟩ = ⟨lang, script, ""⟩ := by
      rw [getParent_of_generic _ (fun h => append_dash_ne_empty _ _ (hstr ▸ h))
        (fun h => append_dash_ne_en _ _ (hstr ▸ h)) h2 h3]
      rw [if_pos ht]
    show (iterParent 6 (Locale.GetParent ⟨lang, script, terr⟩)).IsEmpty = true
    rw [hp]
    exact chain_script lang script

/-- Every language-only chain with a non-empty language hits "en". -/
theorem hits_lang (lang : String) (h : lang ≠ "") : chainHitsEn ⟨lang, "", ""⟩ := by
  by_cases h1 : lang = "en"
  · exact ⟨0, by subst h1; rfl⟩
  by_cases h2 : lang = "es-AR"
  · subst h2; exact ⟨3, by decide⟩
  by_cases h3 : lang = "sr-Latn"
  · subst h3; exact ⟨1, by decide⟩
  have hstr := str_lang lang
  have hp : Locale.GetParent ⟨lang, "", ""⟩ = ⟨"en", "", ""⟩ := by
    rw [getParent_of_generic _ (by rw [hstr]; exact h) (by rw [hstr]; exact h1)
      (by rw [hstr]; exact h2) (by rw [hstr]; exact h3)]
    rw [if_neg (fun hx => hx rfl), if_neg (fun hx => hx rfl)]
  exact ⟨1, hp⟩

/-- Every territory-free chain with a non-empty language hits "en". -/
theorem hits_script (lang script : String) (h : lang ≠ "") :
    chainHitsEn ⟨lang, script, ""⟩ := by
  by_cases hs : script = ""
  · subst hs; exact hits_lang lang h
  have hstr := str_lang_script lang script hs
  by_cases h2 : Locale.str ⟨lang, script, ""⟩ = "es-AR"
  · have hp : Locale.GetParent ⟨lang, script, ""⟩ = NewLocale "es-419" := by
      unfold Locale.GetParent
      rw [if_neg ?_]
      · unfold parentLocales
        rw [alookup_pair, if_pos h2.symm]
      · rintro (hx | hx)
        · exact append_dash_ne_empty _ _ (hstr ▸ hx)
        · exact append_dash_ne_en _ _ (hstr ▸ hx)
    refine ⟨3, ?_⟩
    show iterParent 2 (Locale.GetParent ⟨lang, script, ""⟩) = enLocale
    rw [hp]
    decide
  by_cases h3 : Locale.str ⟨lang, script, ""⟩ = "sr-Latn"
  · have hp : Locale.GetParent ⟨lang, script, ""⟩ = NewLocale "en" := by
      unfold Locale.GetParent
      rw [if_neg ?_]
      · unfold parentLocales
        rw [alookup_pair, if_neg (fun hx => h2 hx.symm), if_pos h3.symm]
      · rintro (hx | hx)
        · exact append_dash_ne_empty _ _ (hstr ▸ hx)
        · exact append_dash_ne_en _ _ (hstr ▸ hx)
    refine ⟨1, ?_⟩
    show Locale.GetParent ⟨lang, script, ""⟩ = enLocale
    rw [hp]
    decide
  · have hp : Locale.GetParent ⟨lang, script, ""⟩ = ⟨lang, "", ""⟩ := by
      rw [getParent_of_generic _ (fun hx => append_dash_ne_empty _ _ (hstr ▸ hx))
        (fun hx => append_dash_ne_en _ _ (hstr ▸ hx)) h2 h3]
      rw [if_neg (fun hx => hx rfl), if_pos hs]
    obtain ⟨k, hk⟩ := hits_lang lang h
    refine ⟨k + 1, ?_⟩
    show iterParent k (Locale.GetParent ⟨lang, script, ""⟩) = enLocale
    rw [hp]
    exact hk

/-- Every chain from a locale with a non-empty language hits "en". -/
theorem hits_full (l : Locale) (h : l.Language ≠ "") : chainHitsEn l := by
  obtain ⟨lang, script, terr⟩ := l
  by_cases ht : terr = ""
  · subst ht; exact hits_script lang script h
  have hstr := str_terr lang script terr ht
  by_cases h2 : Locale.str ⟨lang, script, terr⟩ = "es-AR"
  · have hp : Locale.GetParent ⟨lang, script, terr⟩ = NewLocale "es-419" := by
      unfold Locale.GetParent
      rw [if_neg ?_]
      · unfold parentLocales
        rw [alookup_pair, if_pos h2.symm]
      · rintro (hx | hx)
        · exact append_dash_ne_empty _ _ (hstr ▸ hx)
        · exact append_dash_ne_en _ _ (hstr ▸ hx)
    refine ⟨3, ?_⟩
    show iterParent 2 (Locale.GetParent ⟨lang, script, terr⟩) = enLocale
    rw [hp]
    decide
  by_cases h3 : Locale.str ⟨lang, script, terr⟩ = "sr-Latn"
  · have hp : Locale.GetParent ⟨lang, script, terr⟩ = NewLocale "en" := by
      unfold Locale.GetParent
      rw [if_neg ?_]
      · unfold parentLocales
        rw [alookup_pair, if_neg (fun hx => h2 hx.symm), if_pos h3.symm]
      · rintro (hx | hx)
        · exact append_dash_ne_empty _ _ (hstr ▸ hx)
        · exact append_dash_ne_en _ _ (hstr ▸ hx)
    refine ⟨1, ?_⟩
    show Locale.GetParent ⟨lang, script, terr⟩ = enLocale
    rw [hp]
    decide
  · have hp : Locale.GetParent ⟨lang, script, terr⟩ = ⟨lang, script, ""⟩ := by
      rw [getParent_of_generic _ (fun hx => append_dash_ne_empty _ _ (hstr ▸ hx))
        (fun hx => append_dash_ne_en _ _ (hstr ▸ hx)) h2 h3]
      rw [if_pos ht]
    obtain ⟨k, hk⟩ := hits_script lang script h
    refine ⟨k + 1, ?_⟩
    show iterParent k (Locale.GetParent ⟨lang, script, terr⟩) = enLocale
    rw [hp]
    exact hk

/-- C9 counterexample: the locale with empty language and script "Latn"
is neither empty nor "en", yet its parent chain goes directly to the
empty locale and never passes through "en". -/
theorem C9_counterexample :
    ¬chainHitsEn ⟨"", "Latn", ""⟩ ∧
    Locale.IsEmpty ⟨"", "Latn", ""⟩ = false ∧
    (⟨"", "Latn", ""⟩ : Locale) ≠ enLocale := by
  refine ⟨?_, by decide, by decide⟩
  rintro ⟨k, hk⟩
  cases k with
  | zero => exact absurd hk (by decide)
  | succ m =>
    have hp : Locale.GetParent ⟨"", "Latn", ""⟩ = emptyLocale := by decide
    rw [show iterParent (m + 1) ⟨"", "Latn", ""⟩
        = iterParent m (Locale.GetParent ⟨"", "Latn", ""⟩) from rfl, hp, iter_empty] at hk
    exact absurd hk (by decide)

/-- C9 (amended): every locale's parent chain reaches the empty locale
in finitely many steps (at most 7), and it passes through "en" whenever
the locale's language is non-empty; a locale with an empty language but
a script or territory goes straight to the empty locale. -/
theorem C9_parent_chain (l : Locale) :
    (iterParent 7 l).IsEmpty = true ∧ (l.Language ≠ "" → chainHitsEn l) :=
  ⟨chain_full l, fun h => hits_full l h⟩

/-- Witness for C9 at the concrete locale "es-AR". -/
theorem C9_parent_chain_witness :
    (iterParent 7 ⟨"es", "", "AR"⟩).IsEmpty = true ∧ chainHitsEn ⟨"es", "", "AR"⟩ :=
  ⟨(C9_parent_chain ⟨"es", "", "AR"⟩).1, (C9_parent_chain ⟨"es", "", "AR"⟩).2 (by decide)⟩

end Currency
